import Mathlib

/-!
A verification development for the movie-library scripts
(`movielib_v1.1.py`, with the older `movie-library-TMdB.py` variant where it
differs).  The Python code is shallowly embedded: the TMDB HTTP layer, the
poster `urlretrieve` call and the wall clock are abstracted into an
environment record (`TmdbEnv`); the SQLite `movies` table is a list of
records; the filesystem is an inductive tree whose directories may be
unlistable (modelling an `os.listdir` that raises).  Failure modes modelled
are exactly the ones the scripts distinguish and handle: transport errors /
non-200 responses (`Option`-valued endpoints), empty search results, poster
download failure, and unlistable directories.  Strings are modelled at the
character-list level over the ASCII fragment of Python's `str` semantics.
-/

/-- ASCII fragment of Python's notion of whitespace (`str.strip`, regex
according to the characters space, tab, newline, carriage return, vertical tab and
form feed). -/
def isPySpace (c : Char) : Bool :=
  c = ' ' || c = '\t' || c = '\n' || c = '\r' || c = '\x0b' || c = '\x0c'

/-- ASCII fragment of Python's `str.lower`. -/
def pyLowerChar (c : Char) : Char :=
  if c.toNat ≥ 65 && c.toNat ≤ 90 then Char.ofNat (c.toNat + 32) else c

/-- Python's `str.strip()` on a character list: drop whitespace at both ends. -/
def pyStripChars (l : List Char) : List Char :=
  ((l.dropWhile isPySpace).reverse.dropWhile isPySpace).reverse

/-- Python's `str.strip()`, packaged as a `String`. -/
def pyStrip (l : List Char) : String :=
  String.mk (pyStripChars l)

/-- Value of a digit string, as computed by Python's `int`. -/
def digitsVal (d : List Char) : Nat :=
  d.foldl (fun n c => 10 * n + (c.toNat - 48)) 0

/-- Attempt to read the literal tail `\(\d{4}\)` of the regex
`(.+)\s*\((\d{4})\)` at the head of `cs`; anything may follow the closing
parenthesis because the pattern is not end-anchored.  Returns the year. -/
def checkParen (cs : List Char) : Option Nat :=
  match cs with
  | '(' :: d1 :: d2 :: d3 :: d4 :: ')' :: _ =>
    if d1.isDigit && d2.isDigit && d3.isDigit && d4.isDigit then
      some (digitsVal [d1, d2, d3, d4])
    else none
  | _ => none

/-- Backtracking over `\s*`: with `rest` the text after the group-1 candidate,
try `\s*` matching `j` characters for `j = jmax, jmax-1, ..., 0` (the regex
engine shrinks a greedy `\s*` from the right). -/
def tryWS (rest : List Char) : Nat → Option Nat
  | 0 => checkParen rest
  | j + 1 =>
    match checkParen (rest.drop (j + 1)) with
    | some y => some y
    | none => tryWS rest j

/-- Backtracking over the greedy `(.+)`: try group 1 of length
`i = imax, imax-1, ..., 1` (Python's `re.match` anchors at the start and
shrinks a greedy `.+` from the right). -/
def tryI (s : List Char) : Nat → Option (Nat × Nat)
  | 0 => none
  | i + 1 =>
    match tryWS (s.drop (i + 1)) ((s.drop (i + 1)).takeWhile isPySpace).length with
    | some y => some (i + 1, y)
    | none => tryI s i

/-- Embedding of `parse_movie_folder` (movielib_v1.1.py lines 53-59):
`re.match(r"(.+)\s*\((\d{4})\)", folder_name)`, returning
`(match.group(1).strip(), int(match.group(2)))` on success and
`(folder_name, None)` otherwise.  `.` matches any character but newline, and
the initial bound for `.+` is therefore the longest newline-free prefix. -/
def parse_movie_folder (s : String) : String × Option Nat :=
  match tryI s.data (s.data.takeWhile (fun c => c != '\n')).length with
  | some (i, y) => (pyStrip (s.data.take i), some y)
  | none => (s, none)

/-- List-level startsWith used by the string helpers below. -/
def lStartsWith : List Char → List Char → Bool
  | [], _ => true
  | _ :: _, [] => false
  | p :: ps, c :: cs => p = c && lStartsWith ps cs

/-- Python's `str.endswith` on character lists. -/
def lEndsWith (pat l : List Char) : Bool :=
  lStartsWith pat.reverse l.reverse

/-- Python's `folder_name.startswith('.')`. -/
def startsWithDot (s : String) : Bool :=
  match s.data with
  | [] => false
  | c :: _ => c = '.'

/-- `os.path.join` for the relative names produced by `os.listdir`. -/
def pathJoin (d n : String) : String := d ++ "/" ++ n

/-- One member of the `crew` array of the TMDB credits response. -/
structure CrewMember where
  name : String
  job : String
deriving DecidableEq

/-- The fields of the TMDB movie-details response that the scripts read, plus
`release_date`, which carries the provider's own year information and which
the scripts never read. -/
structure Details where
  title : String
  overview : Option String
  genres : List String
  production_countries : List String
  poster_path : Option String
  vote_average : Option Rat
  release_date : String
deriving DecidableEq

/-- The dictionary built by `fetch_movie_info`. -/
structure MovieInfo where
  title : String
  year : Nat
  director : Option String
  countries : String
  poster_url : Option String
  plot : Option String
  genres : String
  rating : Option Rat
  tmdb_id : Nat
deriving DecidableEq

/-- One row of the `movies` table of movielib_v1.1.py (`setup_database`,
lines 29-46); the AUTOINCREMENT surrogate `id` is omitted because no claim
mentions it. -/
structure MovieRecord where
  title : String
  year : Nat
  director : Option String
  countries : String
  poster_path : Option String
  plot : Option String
  genres : String
  rating : Option Rat
  folder_path : String
  last_updated : Nat
  tmdb_id : Nat
  video_path : Option String
deriving DecidableEq

/-- The external world of one reconciliation pass: the three TMDB endpoints
(`none` = transport error or non-200 status; `some` = a 200 response), the
outcome of `urllib.request.urlretrieve` per URL, and the clock.  All of these
are fixed during a pass, which matches a deterministic replay of one run. -/
structure TmdbEnv where
  search : String → Nat → Option (List Nat)
  details : Nat → Option Details
  credits : Nat → Option (List CrewMember)
  posterFetch : String → Bool
  now : Nat

/-- Observable side events of a pass: a metadata fetch issued for a folder
path, a poster retrieval attempted for a URL, and a reported
directory-scan error (the `print` in `scan_directory`'s `except`). -/
inductive Event where
  | fetch (folderPath : String) : Event
  | posterGet (url : String) : Event
  | scanErr (dirPath : String) : Event
deriving DecidableEq

/-- The comprehension
`[crew['name'] for crew in data.get('crew', []) if crew['job'] == 'Director']`
as the single pass Python performs. -/
def directorsOf : List CrewMember → List String
  | [] => []
  | c :: cs => if c.job = "Director" then c.name :: directorsOf cs else directorsOf cs

/-- Python's `sep.join(xs)`. -/
def pyJoin (sep : String) : List String → String
  | [] => ""
  | [x] => x
  | x :: y :: xs => x ++ sep ++ pyJoin sep (y :: xs)

/-- Embedding of `get_director_from_credits` (movielib_v1.1.py lines 61-75):
on a 200 response, names of crew members whose job is exactly "Director"
joined with ", "; `None` when that list is empty (Python's falsy `[]`) or on
any request error. -/
def get_director_from_credits (env : TmdbEnv) (movie_id : Nat) : Option String :=
  match env.credits movie_id with
  | none => none
  | some crew =>
    match directorsOf crew with
    | [] => none
    | d :: ds => some (pyJoin ", " (d :: ds))

/-- `TMDB_IMAGE_BASE_URL`. -/
def tmdbImageBase : String := "https://image.tmdb.org/t/p/w500"

/-- Embedding of `fetch_movie_info` (movielib_v1.1.py lines 77-120): search,
take the first result, fetch details, fetch credits, and assemble the dict.
The `year` field is set from the `year` argument (line 109); the provider's
`release_date` is never read.  Every transport error, non-200 status or empty
result list yields `None`. -/
def fetch_movie_info (env : TmdbEnv) (title : String) (year : Nat) : Option MovieInfo :=
  match env.search title year with
  | none => none
  | some [] => none
  | some (movie_id :: _) =>
    match env.details movie_id with
    | none => none
    | some data =>
      let director := get_director_from_credits env movie_id
      some
        { title := data.title
          year := year
          director := director
          countries := pyJoin ", " data.production_countries
          poster_url :=
            match data.poster_path with
            | none => none
            | some p => if p = "" then none else some (tmdbImageBase ++ p)
          plot := data.overview
          genres := pyJoin ", " data.genres
          rating := data.vote_average
          tmdb_id := movie_id }

/-- The poster filename of `download_poster`:
`"".join(c if c.isalnum() or c in (' ', '-', '_') else '_' for c in title)`
then `.replace(' ', '_') + ".jpg"`. -/
def posterFilename (t : String) : String :=
  let safe := t.data.map (fun c => if c.isAlphanum || c = ' ' || c = '-' || c = '_' then c else '_')
  String.mk (safe.map (fun c => if c = ' ' then '_' else c)) ++ ".jpg"

/-- Embedding of `download_poster` (movielib_v1.1.py lines 122-137): skip a
falsy URL; otherwise attempt the retrieval (recorded as an event) and return
the `/static/` reference on success, `None` on failure. -/
def download_poster (env : TmdbEnv) (poster_url : Option String) (movie_title : String) :
    Option String × List Event :=
  match poster_url with
  | none => (none, [])
  | some url =>
    if url = "" then (none, [])
    else
      let filename := posterFilename movie_title
      if env.posterFetch url then (some ("/static/" ++ filename), [Event.posterGet url])
      else (none, [Event.posterGet url])

/-- A directory listing as `os.listdir` would enumerate it: files, child
directories that cannot themselves be listed (`os.listdir` raises on them),
and readable child directories carrying their own listing. -/
inductive Entries where
  | nil : Entries
  | consFile (name : String) (rest : Entries) : Entries
  | consBadDir (name : String) (rest : Entries) : Entries
  | consDir (name : String) (sub : Entries) (rest : Entries) : Entries
deriving DecidableEq

/-- Entry names in listing order (what `os.listdir` returns). -/
def namesOf : Entries → List String
  | .nil => []
  | .consFile n rest => n :: namesOf rest
  | .consBadDir n rest => n :: namesOf rest
  | .consDir n _ rest => n :: namesOf rest

/-- The `video_extensions` tuple check: lowercased name ends with one of
exactly `.mp4 .mkv .avi .mov .wmv .m4v`. -/
def isVideoName (n : String) : Bool :=
  let low := n.data.map pyLowerChar
  lEndsWith ".mp4".data low || lEndsWith ".mkv".data low || lEndsWith ".avi".data low ||
    lEndsWith ".mov".data low || lEndsWith ".wmv".data low || lEndsWith ".m4v".data low

/-- The loop of `find_video_file`: first entry, in listing order, whose name
passes the extension check; directory entries are eligible because the code
never tests `isfile`. -/
def firstVideoName : Entries → Option String
  | .nil => none
  | .consFile n rest => if isVideoName n then some n else firstVideoName rest
  | .consBadDir n rest => if isVideoName n then some n else firstVideoName rest
  | .consDir n _ rest => if isVideoName n then some n else firstVideoName rest

/-- Embedding of `find_video_file` (movielib_v1.1.py lines 139-148): `None`
when the folder cannot be listed (the `except` branch) and the joined path of
the first matching entry otherwise. -/
def find_video_file (folder_path : String) (listing : Option Entries) : Option String :=
  match listing with
  | none => none
  | some es => (firstVideoName es).map (fun n => pathJoin folder_path n)

/-- The `movies` table. -/
abbrev Store := List MovieRecord

/-- `SELECT id FROM movies WHERE folder_path = ?` followed by `fetchone()`. -/
def dbLookup (st : Store) (fp : String) : Option MovieRecord :=
  List.find? (fun r => r.folder_path == fp) st

/-- `INSERT OR REPLACE` against the `UNIQUE(folder_path)` constraint: any row
with the same key is replaced. -/
def upsert (st : Store) (rec : MovieRecord) : Store :=
  List.filter (fun r => !(r.folder_path == rec.folder_path)) st ++ [rec]

/-- `setup_database` (movielib_v1.1.py lines 25-48) creates the table empty. -/
def setup_database : Store := []

/-- The body of `scan_directory` for one movie-leaf folder (movielib_v1.1.py
lines 161-183): the `SELECT` gate, then `fetch_movie_info`, `download_poster`,
`find_video_file`, and the `INSERT OR REPLACE`. -/
def processLeaf (env : TmdbEnv) (fp title : String) (y : Nat) (sub : Option Entries)
    (s : Store × List Event) : Store × List Event :=
  match dbLookup s.1 fp with
  | some _ => s
  | none =>
    let log := s.2 ++ [Event.fetch fp]
    match fetch_movie_info env title y with
    | none => (s.1, log)
    | some info =>
      let pe := download_poster env info.poster_url info.title
      let vp := find_video_file fp sub
      (upsert s.1
        { title := info.title, year := info.year, director := info.director,
          countries := info.countries, poster_path := pe.1, plot := info.plot,
          genres := info.genres, rating := info.rating, folder_path := fp,
          last_updated := env.now, tmdb_id := info.tmdb_id, video_path := vp },
       log ++ pe.2)

/-- The loop of `scan_directory` (movielib_v1.1.py lines 150-187) over one
directory listing.  Skip `posters` and hidden names; a name parsing to a
truthy year is a movie leaf; otherwise recurse — where recursing into an
unlistable child is the `except` branch: the error is reported and the state
is otherwise untouched.  Python's `if year:` makes year `0` falsy. -/
def scanEntries (env : TmdbEnv) : String → Entries → Store × List Event → Store × List Event
  | _, .nil, s => s
  | dir, .consFile _ rest, s => scanEntries env dir rest s
  | dir, .consBadDir name rest, s =>
    let s' :=
      if name = "posters" || startsWithDot name then s
      else
        let fp := pathJoin dir name
        match parse_movie_folder name with
        | (title, some y) =>
          if y = 0 then (s.1, s.2 ++ [Event.scanErr fp])
          else processLeaf env fp title y none s
        | (_, none) => (s.1, s.2 ++ [Event.scanErr fp])
    scanEntries env dir rest s'
  | dir, .consDir name sub rest, s =>
    let s' :=
      if name = "posters" || startsWithDot name then s
      else
        let fp := pathJoin dir name
        match parse_movie_folder name with
        | (title, some y) =>
          if y = 0 then scanEntries env fp sub s
          else processLeaf env fp title y (some sub) s
        | (_, none) => scanEntries env fp sub s
    scanEntries env dir rest s'

/-- Embedding of `scan_directory` (movielib_v1.1.py lines 150-187): an
unlistable directory only reports an error (the `try`/`except` around the
loop); a listable one is folded over. -/
def scan_directory (env : TmdbEnv) (dir : String) (listing : Option Entries)
    (s : Store × List Event) : Store × List Event :=
  match listing with
  | none => (s.1, s.2 ++ [Event.scanErr dir])
  | some es => scanEntries env dir es s

/-- The leaf body of the older `movie-library-TMdB.py` `scan_directory`
(lines 147-167): same gate and fetch, but a plain `INSERT` into a table with
no `UNIQUE(folder_path)` and no `video_path` column (the column is modelled
as constantly absent). -/
def processLeafTM (env : TmdbEnv) (fp title : String) (y : Nat)
    (s : Store × List Event) : Store × List Event :=
  match dbLookup s.1 fp with
  | some _ => s
  | none =>
    let log := s.2 ++ [Event.fetch fp]
    match fetch_movie_info env title y with
    | none => (s.1, log)
    | some info =>
      let pe := download_poster env info.poster_url info.title
      (s.1 ++
        [{ title := info.title, year := info.year, director := info.director,
           countries := info.countries, poster_path := pe.1, plot := info.plot,
           genres := info.genres, rating := info.rating, folder_path := fp,
           last_updated := env.now, tmdb_id := info.tmdb_id, video_path := none }],
       log ++ pe.2)

/-- The loop of `movie-library-TMdB.py`'s `scan_directory` (lines 137-169):
identical traversal but with no `try`/`except` anywhere, so an unlistable
directory raises and the exception propagates through every recursion level;
`Except.error` carries the offending path. -/
def scanEntriesTM (env : TmdbEnv) :
    String → Entries → Store × List Event → Except String (Store × List Event)
  | _, .nil, s => .ok s
  | dir, .consFile _ rest, s => scanEntriesTM env dir rest s
  | dir, .consBadDir name rest, s =>
    if name = "posters" || startsWithDot name then scanEntriesTM env dir rest s
    else
      let fp := pathJoin dir name
      match parse_movie_folder name with
      | (title, some y) =>
        if y = 0 then .error fp
        else scanEntriesTM env dir rest (processLeafTM env fp title y s)
      | (_, none) => .error fp
  | dir, .consDir name sub rest, s =>
    if name = "posters" || startsWithDot name then scanEntriesTM env dir rest s
    else
      let fp := pathJoin dir name
      match parse_movie_folder name with
      | (title, some y) =>
        if y = 0 then
          match scanEntriesTM env fp sub s with
          | .error e => .error e
          | .ok s' => scanEntriesTM env dir rest s'
        else scanEntriesTM env dir rest (processLeafTM env fp title y s)
      | (_, none) =>
        match scanEntriesTM env fp sub s with
        | .error e => .error e
        | .ok s' => scanEntriesTM env dir rest s'

/-- Embedding of `movie-library-TMdB.py`'s `scan_directory` (lines 137-169):
an unlistable root likewise raises. -/
def scan_directory_tm (env : TmdbEnv) (dir : String) (listing : Option Entries)
    (s : Store × List Event) : Except String (Store × List Event) :=
  match listing with
  | none => .error dir
  | some es => scanEntriesTM env dir es s

/-- The title order of `SELECT * FROM movies ORDER BY title`. -/
def leTitle (a b : MovieRecord) : Prop := a.title ≤ b.title

instance : DecidableRel leTitle :=
  fun a b => inferInstanceAs (Decidable (a.title ≤ b.title))

instance : IsTotal MovieRecord leTitle := ⟨fun a b => le_total a.title b.title⟩

instance : IsTrans MovieRecord leTitle := ⟨fun _ _ _ h1 h2 => le_trans h1 h2⟩

/-- Embedding of the query of the `display_library` route (movielib_v1.1.py
lines 214-221): all rows of the table, ordered by title. -/
def display_library (st : Store) : List MovieRecord :=
  List.insertionSort leTitle st

/-- The `UNIQUE(folder_path)` invariant: `folder_path` identifies a row. -/
def keysNodup (st : Store) : Prop :=
  (st.map (fun r => r.folder_path)).Nodup

/-- Store states reachable by the pipeline: the fresh table of
`setup_database`, then any number of reconciliation passes over any
directory tree with any environment. -/
inductive Reachable : Store → Prop
  | empty : Reachable setup_database
  | rescan (env : TmdbEnv) (dir : String) (listing : Option Entries)
      (log : List Event) (st : Store) :
      Reachable st → Reachable (scan_directory env dir listing (st, log)).1

/-- Concatenation of two directory listings (sibling sequences). -/
def eapp : Entries → Entries → Entries
  | .nil, b => b
  | .consFile n r, b => .consFile n (eapp r b)
  | .consBadDir n r, b => .consBadDir n (eapp r b)
  | .consDir n sub r, b => .consDir n sub (eapp r b)

/-- From the spec claim's wording, for comparison with the source behaviour:
a folder name matching the trailing pattern `<text> (<4-digit year>)`, i.e. a
nonempty text followed by a parenthesised 4-digit group that closes the
name. -/
def matchesTrailingYearPattern (s : String) : Bool :=
  match s.data.reverse with
  | ')' :: d4 :: d3 :: d2 :: d1 :: '(' :: t =>
    (d1.isDigit && d2.isDigit && d3.isDigit && d4.isDigit) && !t.isEmpty
  | _ => false

/-- Fixture: a well-formed details response; its `release_date` names 1977,
deliberately different from any folder year, to exercise the year
override. -/
def detailsA : Details :=
  { title := "Alpha", overview := some "A plot", genres := ["Drama", "Sci-Fi"],
    production_countries := ["US", "FR"], poster_path := some "/p.jpg",
    vote_average := some 8, release_date := "1977-05-25" }

/-- Fixture: a crew list with two directors and an editor between them. -/
def crewA : List CrewMember :=
  [{ name := "Jane Doe", job := "Director" }, { name := "Bob Roe", job := "Editor" },
   { name := "Ann Poe", job := "Director" }]

/-- Fixture: a fully healthy environment. -/
def envA : TmdbEnv :=
  { search := fun _ _ => some [7], details := fun _ => some detailsA,
    credits := fun _ => some crewA, posterFetch := fun _ => true, now := 5 }

/-- Fixture: like `envA` but every poster retrieval fails. -/
def envB : TmdbEnv :=
  { search := fun _ _ => some [7], details := fun _ => some detailsA,
    credits := fun _ => some crewA, posterFetch := fun _ => false, now := 5 }

/-- Fixture: like `envA` but every search returns zero candidates. -/
def envC : TmdbEnv :=
  { search := fun _ _ => some [], details := fun _ => some detailsA,
    credits := fun _ => some crewA, posterFetch := fun _ => true, now := 5 }

/-- Fixture: one movie-leaf folder holding one video file. -/
def treeW : Entries :=
  .consDir "Alpha (1999)" (.consFile "alpha.mkv" .nil) .nil

/-- Fixture: the listing of the movie folder of `treeW`. -/
def subW : Entries := .consFile "alpha.mkv" .nil

/-- Fixture: an unlistable organizational directory followed by a movie-leaf
sibling. -/
def treeC6 : Entries :=
  .consBadDir "Sub" (.consDir "Alpha (1999)" .nil .nil)

/-- Fixture: the `MovieInfo` that `fetch_movie_info envB "Alpha" 1999`
resolves (poster URL present even though its retrieval will fail). -/
def infoB : MovieInfo :=
  { title := "Alpha", year := 1999, director := some "Jane Doe, Ann Poe",
    countries := "US, FR", poster_url := some "https://image.tmdb.org/t/p/w500/p.jpg",
    plot := some "A plot", genres := "Drama, Sci-Fi", rating := some 8, tmdb_id := 7 }

/-- Fixture: a record already present in the store for `/m/Alpha (1999)`. -/
def recA : MovieRecord :=
  { title := "Old Alpha", year := 1999, director := none, countries := "",
    poster_path := none, plot := none, genres := "", rating := none,
    folder_path := "/m/Alpha (1999)", last_updated := 1, tmdb_id := 3,
    video_path := none }

/-- Fixture: the record a scan of `treeW` from the empty store under `envA`
creates. -/
def recScanA : MovieRecord :=
  { title := "Alpha", year := 1999, director := some "Jane Doe, Ann Poe",
    countries := "US, FR", poster_path := some "/static/Alpha.jpg",
    plot := some "A plot", genres := "Drama, Sci-Fi", rating := some 8,
    folder_path := "/m/Alpha (1999)", last_updated := 5, tmdb_id := 7,
    video_path := some "/m/Alpha (1999)/alpha.mkv" }

/-! ## Store lemmas -/

theorem dbLookup_upsert_self (st : Store) (rec : MovieRecord) :
    dbLookup (upsert st rec) rec.folder_path = some rec := by
  unfold dbLookup upsert
  rw [List.find?_append]
  have h1 : List.find? (fun r => r.folder_path == rec.folder_path)
      (List.filter (fun r => !(r.folder_path == rec.folder_path)) st) = none := by
    rw [List.find?_eq_none]
    intro x hx
    have := (List.mem_filter.mp hx).2
    simpa using this
  simp [h1]

theorem dbLookup_upsert_other (st : Store) (rec : MovieRecord) (p : String)
    (h : rec.folder_path ≠ p) : dbLookup (upsert st rec) p = dbLookup st p := by
  have hb : (rec.folder_path == p) = false := by simpa using h
  unfold dbLookup upsert
  induction st with
  | nil => simp [List.find?, hb]
  | cons r st ih =>
    by_cases hk : r.folder_path = rec.folder_path
    · have hq : (r.folder_path == p) = false := by rw [hk]; exact hb
      have hf : (!(r.folder_path == rec.folder_path)) = false := by simp [hk]
      rw [List.filter_cons, hf, if_neg (by simp), ih, List.find?_cons, hq]
    · have hf : (!(r.folder_path == rec.folder_path)) = true := by simp [hk]
      by_cases hq : r.folder_path = p
      · have hq' : (r.folder_path == p) = true := by simp [hq]
        rw [List.filter_cons, hf, if_pos rfl, List.cons_append, List.find?_cons, hq',
          List.find?_cons, hq']
      · have hq' : (r.folder_path == p) = false := by simp [hq]
        rw [List.filter_cons, hf, if_pos rfl, List.cons_append, List.find?_cons, hq', ih,
          List.find?_cons, hq']

theorem mem_upsert {st : Store} {rec r : MovieRecord} (h : r ∈ upsert st rec) :
    r ∈ st ∨ r = rec := by
  unfold upsert at h
  rcases List.mem_append.mp h with h1 | h1
  · exact Or.inl (List.mem_of_mem_filter h1)
  · simp at h1; exact Or.inr h1

theorem keysNodup_upsert {st : Store} (rec : MovieRecord) (h : keysNodup st) :
    keysNodup (upsert st rec) := by
  unfold keysNodup upsert
  rw [List.map_append, List.nodup_append]
  refine ⟨?_, by simp, ?_⟩
  · exact List.Nodup.sublist (List.Sublist.map _ (List.filter_sublist st)) h
  · intro a ha
    rcases List.mem_map.mp ha with ⟨x, hx, hax⟩
    have := (List.mem_filter.mp hx).2
    simp only [Bool.not_eq_eq_eq_not, Bool.not_true, beq_eq_false_iff_ne] at this
    simp [← hax, this]

/-- Every event that `download_poster` can emit is a poster retrieval. -/
theorem download_poster_events (env : TmdbEnv) (u : Option String) (t : String) :
    ∀ e ∈ (download_poster env u t).2, ∃ url, e = Event.posterGet url := by
  unfold download_poster
  match u with
  | none => simp
  | some url =>
    by_cases h : url = "" <;> by_cases hf : env.posterFetch url <;> simp [h, hf]

/-- `fetch_movie_info` always reports the year it was given (line 109 of
movielib_v1.1.py), whatever the provider's responses contain. -/
theorem fetch_movie_info_year (env : TmdbEnv) (title : String) (y : Nat)
    (info : MovieInfo) (h : fetch_movie_info env title y = some info) :
    info.year = y := by
  unfold fetch_movie_info at h
  split at h
  · exact absurd h (by simp)
  · exact absurd h (by simp)
  · split at h
    · exact absurd h (by simp)
    · simp only [Option.some.injEq] at h
      rw [← h]

/-! ## Per-leaf lemmas -/

theorem processLeaf_frame (env : TmdbEnv) (fp title : String) (y : Nat)
    (sub : Option Entries) (s : Store × List Event) (p : String) (r : MovieRecord)
    (h : dbLookup s.1 p = some r) :
    dbLookup (processLeaf env fp title y sub s).1 p = some r ∧
      (Event.fetch p ∈ (processLeaf env fp title y sub s).2 → Event.fetch p ∈ s.2) := by
  unfold processLeaf
  match hl : dbLookup s.1 fp with
  | some _ => exact ⟨h, fun hm => hm⟩
  | none =>
    have hfp : fp ≠ p := by
      intro he; rw [he, h] at hl; exact absurd hl (by simp)
    match hf : fetch_movie_info env title y with
    | none =>
      refine ⟨h, fun hm => ?_⟩
      rcases List.mem_append.mp hm with h1 | h1
      · exact h1
      · simp at h1; exact absurd h1.symm hfp
    | some info =>
      constructor
      · exact (dbLookup_upsert_other s.1 _ p hfp).trans h
      · intro hm
        rcases List.mem_append.mp hm with h1 | h1
        · rcases List.mem_append.mp h1 with h2 | h2
          · exact h2
          · simp at h2; exact absurd h2.symm hfp
        · rcases download_poster_events env info.poster_url info.title _ h1 with ⟨url, he⟩
          exact absurd he (by simp)

theorem processLeaf_mem (env : TmdbEnv) (fp title : String) (y : Nat)
    (sub : Option Entries) (s : Store × List Event) (r : MovieRecord)
    (h : r ∈ (processLeaf env fp title y sub s).1) :
    r ∈ s.1 ∨ (r.folder_path = fp ∧ r.year = y) := by
  unfold processLeaf at h
  match hl : dbLookup s.1 fp with
  | some _ => rw [hl] at h; exact Or.inl h
  | none =>
    rw [hl] at h
    match hf : fetch_movie_info env title y with
    | none => rw [hf] at h; exact Or.inl h
    | some info =>
      rw [hf] at h
      simp only at h
      rcases mem_upsert h with h1 | h1
      · exact Or.inl h1
      · subst h1
        exact Or.inr ⟨rfl, fetch_movie_info_year env title y info hf⟩

theorem processLeaf_nodup (env : TmdbEnv) (fp title : String) (y : Nat)
    (sub : Option Entries) (s : Store × List Event) (h : keysNodup s.1) :
    keysNodup (processLeaf env fp title y sub s).1 := by
  unfold processLeaf
  match hl : dbLookup s.1 fp with
  | some _ => exact h
  | none =>
    match hf : fetch_movie_info env title y with
    | none => exact h
    | some info => exact keysNodup_upsert _ h

/-! ## Whole-scan lemmas -/

theorem scanEntries_frame (env : TmdbEnv) (p : String) (r : MovieRecord) :
    ∀ (es : Entries) (dir : String) (s : Store × List Event),
      dbLookup s.1 p = some r →
      dbLookup (scanEntries env dir es s).1 p = some r ∧
        (Event.fetch p ∈ (scanEntries env dir es s).2 → Event.fetch p ∈ s.2) := by
  intro es
  induction es with
  | nil => intro dir s h; exact ⟨h, fun hm => hm⟩
  | consFile n rest ih => intro dir s h; exact ih dir s h
  | consBadDir n rest ih =>
    intro dir s h
    simp only [scanEntries]
    split
    · exact ih dir s h
    · split
      · split
        · rcases ih dir (s.1, s.2 ++ [Event.scanErr (pathJoin dir n)]) h with ⟨h1, h2⟩
          refine ⟨h1, fun hm => ?_⟩
          rcases List.mem_append.mp (h2 hm) with h3 | h3
          · exact h3
          · exact absurd h3 (by simp)
        · rcases processLeaf_frame env _ _ _ none s p r h with ⟨h1, h2⟩
          rcases ih dir _ h1 with ⟨h3, h4⟩
          exact ⟨h3, fun hm => h2 (h4 hm)⟩
      · rcases ih dir (s.1, s.2 ++ [Event.scanErr (pathJoin dir n)]) h with ⟨h1, h2⟩
        refine ⟨h1, fun hm => ?_⟩
        rcases List.mem_append.mp (h2 hm) with h3 | h3
        · exact h3
        · exact absurd h3 (by simp)
  | consDir n sub rest ihsub ih =>
    intro dir s h
    simp only [scanEntries]
    split
    · exact ih dir s h
    · split
      · split
        · rcases ihsub _ s h with ⟨h1, h2⟩
          rcases ih dir _ h1 with ⟨h3, h4⟩
          exact ⟨h3, fun hm => h2 (h4 hm)⟩
        · rcases processLeaf_frame env _ _ _ (some sub) s p r h with ⟨h1, h2⟩
          rcases ih dir _ h1 with ⟨h3, h4⟩
          exact ⟨h3, fun hm => h2 (h4 hm)⟩
      · rcases ihsub _ s h with ⟨h1, h2⟩
        rcases ih dir _ h1 with ⟨h3, h4⟩
        exact ⟨h3, fun hm => h2 (h4 hm)⟩

theorem scanEntries_nodup (env : TmdbEnv) :
    ∀ (es : Entries) (dir : String) (s : Store × List Event),
      keysNodup s.1 → keysNodup (scanEntries env dir es s).1 := by
  intro es
  induction es with
  | nil => intro dir s h; exact h
  | consFile n rest ih => intro dir s h; exact ih dir s h
  | consBadDir n rest ih =>
    intro dir s h
    simp only [scanEntries]
    split
    · exact ih dir s h
    · split
      · split
        · exact ih dir _ h
        · exact ih dir _ (processLeaf_nodup env _ _ _ none s h)
      · exact ih dir _ h
  | consDir n sub rest ihsub ih =>
    intro dir s h
    simp only [scanEntries]
    split
    · exact ih dir s h
    · split
      · split
        · exact ih dir _ (ihsub _ s h)
        · exact ih dir _ (processLeaf_nodup env _ _ _ (some sub) s h)
      · exact ih dir _ (ihsub _ s h)

theorem scanEntries_mem_year (env : TmdbEnv) (r : MovieRecord) :
    ∀ (es : Entries) (dir : String) (s : Store × List Event),
      r ∈ (scanEntries env dir es s).1 →
      r ∈ s.1 ∨ ∃ d n, r.folder_path = pathJoin d n ∧
        (parse_movie_folder n).2 = some r.year := by
  intro es
  induction es with
  | nil => intro dir s h; exact Or.inl h
  | consFile n rest ih => intro dir s h; exact ih dir s h
  | consBadDir n rest ih =>
    intro dir s h
    simp only [scanEntries] at h
    split at h
    · exact ih dir s h
    · split at h
      · rename_i title y heq
        split at h
        · rcases ih dir _ h with h1 | h1
          · exact Or.inl h1
          · exact Or.inr h1
        · rcases ih dir _ h with h1 | h1
          · rcases processLeaf_mem env _ _ _ none s r h1 with h2 | h2
            · exact Or.inl h2
            · refine Or.inr ⟨dir, n, h2.1, ?_⟩
              rw [heq, h2.2]
          · exact Or.inr h1
      · rcases ih dir _ h with h1 | h1
        · exact Or.inl h1
        · exact Or.inr h1
  | consDir n sub rest ihsub ih =>
    intro dir s h
    simp only [scanEntries] at h
    split at h
    · exact ih dir s h
    · split at h
      · rename_i title y heq
        split at h
        · rcases ih dir _ h with h1 | h1
          · rcases ihsub _ s h1 with h2 | h2
            · exact Or.inl h2
            · exact Or.inr h2
          · exact Or.inr h1
        · rcases ih dir _ h with h1 | h1
          · rcases processLeaf_mem env _ _ _ (some sub) s r h1 with h2 | h2
            · exact Or.inl h2
            · refine Or.inr ⟨dir, n, h2.1, ?_⟩
              rw [heq, h2.2]
          · exact Or.inr h1
      · rcases ih dir _ h with h1 | h1
        · rcases ihsub _ s h1 with h2 | h2
          · exact Or.inl h2
          · exact Or.inr h2
        · exact Or.inr h1


/-- The loop of `scan_directory` processes a listing left to right: scanning a
concatenation is scanning the first part, then the second from the resulting
state. -/
theorem scanEntries_eapp (env : TmdbEnv) :
    ∀ (a b : Entries) (dir : String) (s : Store × List Event),
      scanEntries env dir (eapp a b) s = scanEntries env dir b (scanEntries env dir a s) := by
  intro a
  induction a with
  | nil => intro b dir s; rfl
  | consFile n rest ih => intro b dir s; simp only [eapp, scanEntries]; rw [ih]
  | consBadDir n rest ih => intro b dir s; simp only [eapp, scanEntries]; rw [ih]
  | consDir n sub rest ihsub ih => intro b dir s; simp only [eapp, scanEntries]; rw [ih]

/-! ## Video-file detection lemmas -/

theorem firstVideoName_eq_find (es : Entries) :
    firstVideoName es = (namesOf es).find? isVideoName := by
  induction es with
  | nil => rfl
  | consFile n rest ih =>
    by_cases h : isVideoName n
    · simp [firstVideoName, namesOf, List.find?_cons, h]
    · simp [firstVideoName, namesOf, List.find?_cons, h, ih]
  | consBadDir n rest ih =>
    by_cases h : isVideoName n
    · simp [firstVideoName, namesOf, List.find?_cons, h]
    · simp [firstVideoName, namesOf, List.find?_cons, h, ih]
  | consDir n sub rest ihsub ih =>
    by_cases h : isVideoName n
    · simp [firstVideoName, namesOf, List.find?_cons, h]
    · simp [firstVideoName, namesOf, List.find?_cons, h, ih]

theorem pyLowerChar_idem (c : Char) : pyLowerChar (pyLowerChar c) = pyLowerChar c := by
  unfold pyLowerChar
  by_cases h : (c.toNat ≥ 65 && c.toNat ≤ 90) = true
  · rw [if_pos h]
    have hrange : 65 ≤ c.toNat ∧ c.toNat ≤ 90 := by
      constructor <;> simp_all
    have hv : (c.toNat + 32).isValidChar := Or.inl (by omega)
    have ht : (Char.ofNat (c.toNat + 32)).toNat = c.toNat + 32 := by
      unfold Char.ofNat
      rw [dif_pos hv]
      unfold Char.ofNatAux Char.toNat
      simp [UInt32.toNat]
    have hc : ((Char.ofNat (c.toNat + 32)).toNat ≥ 65 &&
        (Char.ofNat (c.toNat + 32)).toNat ≤ 90) = false := by
      rw [ht]
      simp only [Bool.and_eq_false_iff, decide_eq_false_iff_not]
      omega
    rw [hc]
    simp
  · rw [if_neg h, if_neg h]

/-! ## Director-extraction lemmas -/

theorem directorsOf_eq_filter_map (l : List CrewMember) :
    directorsOf l = (l.filter (fun c => c.job == "Director")).map (fun c => c.name) := by
  induction l with
  | nil => rfl
  | cons c cs ih =>
    by_cases h : c.job = "Director"
    · simp [directorsOf, List.filter_cons, h, ih]
    · simp [directorsOf, List.filter_cons, h, ih]

theorem intercalate_go_eq (sep : String) :
    ∀ (l : List String) (acc : String),
      String.intercalate.go acc sep l = l.foldl (fun b x => b ++ sep ++ x) acc := by
  intro l
  induction l with
  | nil => intro acc; rfl
  | cons a as ih => intro acc; simp only [String.intercalate.go, List.foldl]; rw [ih]

theorem foldl_join_hoist (sep : String) :
    ∀ (bs : List String) (p q : String),
      p ++ bs.foldl (fun b x => b ++ sep ++ x) q = bs.foldl (fun b x => b ++ sep ++ x) (p ++ q) := by
  intro bs
  induction bs with
  | nil => intro p q; rfl
  | cons c cs ih =>
    intro p q
    simp only [List.foldl]
    rw [ih]
    simp [String.append_assoc]

theorem pyJoin_cons_foldl (sep : String) :
    ∀ (as : List String) (a : String),
      pyJoin sep (a :: as) = as.foldl (fun b x => b ++ sep ++ x) a := by
  intro as
  induction as with
  | nil => intro a; rfl
  | cons b bs ih =>
    intro a
    show a ++ sep ++ pyJoin sep (b :: bs) = List.foldl (fun b x => b ++ sep ++ x) (a ++ sep ++ b) bs
    rw [ih b, foldl_join_hoist]

theorem pyJoin_eq_intercalate (sep : String) :
    ∀ l : List String, pyJoin sep l = String.intercalate sep l := by
  intro l
  match l with
  | [] => rfl
  | a :: as =>
    rw [pyJoin_cons_foldl]
    show _ = String.intercalate.go a sep as
    rw [intercalate_go_eq]

/-! ## Regex-matcher lemmas -/

/-- Declarative description of the folder names on which the (start-anchored,
not end-anchored) regex `(.+)\s*\((\d{4})\)` matches: a nonempty newline-free
text, optional whitespace, a parenthesised 4-digit group, and arbitrary
trailing material. -/
def hasPrefixYearPattern (s : String) : Prop :=
  ∃ a w d r, s.data = a ++ (w ++ ('(' :: (d ++ ')' :: r))) ∧ a ≠ [] ∧
    (∀ c ∈ a, c ≠ '\n') ∧ (∀ c ∈ w, isPySpace c = true) ∧
    d.length = 4 ∧ (∀ c ∈ d, c.isDigit = true)

theorem checkParen_sound {cs : List Char} {y : Nat} (h : checkParen cs = some y) :
    ∃ d1 d2 d3 d4 r, cs = '(' :: d1 :: d2 :: d3 :: d4 :: ')' :: r ∧
      (d1.isDigit && d2.isDigit && d3.isDigit && d4.isDigit) = true ∧
      y = digitsVal [d1, d2, d3, d4] := by
  unfold checkParen at h
  split at h
  · rename_i d1 d2 d3 d4 r
    split at h
    · rename_i hd
      exact ⟨d1, d2, d3, d4, r, rfl, hd, by simpa using h.symm⟩
    · exact absurd h (by simp)
  · exact absurd h (by simp)

theorem checkParen_complete {d r : List Char} (hlen : d.length = 4)
    (hdig : ∀ c ∈ d, c.isDigit = true) :
    checkParen ('(' :: d ++ ')' :: r) = some (digitsVal d) := by
  match d, hlen with
  | [a, b, c, e], _ =>
    have ha := hdig a (by simp)
    have hb := hdig b (by simp)
    have hc := hdig c (by simp)
    have he := hdig e (by simp)
    simp [checkParen, ha, hb, hc, he]

theorem tryWS_sound : ∀ (jmax : Nat) (rest : List Char) (y : Nat),
    tryWS rest jmax = some y → ∃ j, j ≤ jmax ∧ checkParen (rest.drop j) = some y := by
  intro jmax
  induction jmax with
  | zero => intro rest y h; exact ⟨0, Nat.le_refl 0, h⟩
  | succ j ih =>
    intro rest y h
    unfold tryWS at h
    split at h
    · rename_i hcp
      exact ⟨j + 1, Nat.le_refl _, by rw [hcp, h]⟩
    · rcases ih rest y h with ⟨j', hj', hcp⟩
      exact ⟨j', Nat.le_succ_of_le hj', hcp⟩

theorem tryWS_complete : ∀ (jmax j : Nat) (rest : List Char) (y : Nat),
    j ≤ jmax → checkParen (rest.drop j) = some y → (tryWS rest jmax).isSome = true := by
  intro jmax
  induction jmax with
  | zero =>
    intro j rest y hj h
    have : j = 0 := Nat.le_zero.mp hj
    subst this
    rw [List.drop_zero] at h
    unfold tryWS
    rw [h]
    rfl
  | succ jm ih =>
    intro j rest y hj h
    unfold tryWS
    split
    · rfl
    · rename_i hnone
      rcases Nat.lt_or_ge j (jm + 1) with hlt | hge
      · exact ih j rest y (Nat.lt_succ_iff.mp hlt) h
      · have : j = jm + 1 := Nat.le_antisymm hj hge
        subst this
        rw [h] at hnone
        exact absurd hnone (by simp)

theorem tryI_sound : ∀ (k : Nat) (s : List Char) (i y : Nat),
    tryI s k = some (i, y) →
    1 ≤ i ∧ i ≤ k ∧ ∃ j, j ≤ ((s.drop i).takeWhile isPySpace).length ∧
      checkParen ((s.drop i).drop j) = some y := by
  intro k
  induction k with
  | zero => intro s i y h; exact absurd h (by simp [tryI])
  | succ k ih =>
    intro s i y h
    unfold tryI at h
    split at h
    · rename_i y' hws
      simp only [Option.some.injEq, Prod.mk.injEq] at h
      rcases h with ⟨hi1, hi2⟩
      subst hi1
      subst hi2
      rcases tryWS_sound _ _ _ hws with ⟨j, hj, hcp⟩
      exact ⟨Nat.succ_le_succ (Nat.zero_le k), Nat.le_refl _, j, hj, hcp⟩
    · rcases ih s i y h with ⟨h1, h2, h3⟩
      exact ⟨h1, Nat.le_succ_of_le h2, h3⟩

theorem tryI_complete : ∀ (k : Nat) (s : List Char) (i : Nat),
    1 ≤ i → i ≤ k →
    (tryWS (s.drop i) ((s.drop i).takeWhile isPySpace).length).isSome = true →
    (tryI s k).isSome = true := by
  intro k
  induction k with
  | zero => intro s i h1 h2 _; omega
  | succ k ih =>
    intro s i h1 h2 hws
    unfold tryI
    split
    · rfl
    · rename_i hnone
      rcases Nat.lt_or_ge i (k + 1) with hlt | hge
      · exact ih s i h1 (Nat.lt_succ_iff.mp hlt) hws
      · have : i = k + 1 := Nat.le_antisymm h2 hge
        subst this
        rw [hnone] at hws
        exact absurd hws (by simp)

theorem mem_take_of_le_takeWhile (p : Char → Bool) :
    ∀ (l : List Char) (i : Nat), i ≤ (l.takeWhile p).length →
      ∀ c ∈ l.take i, p c = true := by
  intro l
  induction l with
  | nil => intro i _ c hc; simp at hc
  | cons x xs ih =>
    intro i hi c hc
    match i with
    | 0 => simp at hc
    | i + 1 =>
      by_cases hx : p x
      · rw [List.takeWhile_cons, if_pos hx] at hi
        simp only [List.length_cons, Nat.succ_le_succ_iff] at hi
        rcases List.mem_cons.mp (by simpa [List.take] using hc) with h1 | h1
        · rw [h1]; exact hx
        · exact ih i hi c h1
      · rw [List.takeWhile_cons, if_neg hx] at hi
        simp at hi

theorem takeWhile_append_all (p : Char → Bool) :
    ∀ (a t : List Char), (∀ c ∈ a, p c = true) →
      (a ++ t).takeWhile p = a ++ t.takeWhile p := by
  intro a
  induction a with
  | nil => intro t _; rfl
  | cons x xs ih =>
    intro t h
    have hx : p x = true := h x (by simp)
    simp only [List.cons_append, List.takeWhile_cons, hx, if_true]
    rw [ih t (fun c hc => h c (by simp [hc]))]

theorem takeWhile_length_le (p : Char → Bool) :
    ∀ l : List Char, (l.takeWhile p).length ≤ l.length := by
  intro l
  induction l with
  | nil => simp
  | cons x xs ih =>
    rw [List.takeWhile_cons]
    by_cases hx : p x
    · rw [if_pos hx]
      simpa using ih
    · rw [if_neg hx]
      simp

theorem parse_success_decomp (s : String) (i y : Nat)
    (h : tryI s.data (s.data.takeWhile (fun c => c != '\n')).length = some (i, y)) :
    ∃ a w d r, s.data = a ++ (w ++ ('(' :: (d ++ ')' :: r))) ∧ a ≠ [] ∧
      (∀ c ∈ a, c ≠ '\n') ∧ (∀ c ∈ w, isPySpace c = true) ∧
      d.length = 4 ∧ (∀ c ∈ d, c.isDigit = true) ∧
      a = s.data.take i ∧ y = digitsVal d := by
  rcases tryI_sound _ s.data i y h with ⟨h1, h2, j, hj, hcp⟩
  rcases checkParen_sound hcp with ⟨d1, d2, d3, d4, r, htail, hdig, hy⟩
  simp only [Bool.and_eq_true] at hdig
  refine ⟨s.data.take i, (s.data.drop i).take j, [d1, d2, d3, d4], r, ?_, ?_, ?_, ?_, rfl, ?_, rfl, hy⟩
  · have e1 : s.data.take i ++ s.data.drop i = s.data := List.take_append_drop i s.data
    have e2 : (s.data.drop i).take j ++ (s.data.drop i).drop j = s.data.drop i :=
      List.take_append_drop j (s.data.drop i)
    have e3 : ('(' :: ([d1, d2, d3, d4] ++ ')' :: r) : List Char) =
        '(' :: d1 :: d2 :: d3 :: d4 :: ')' :: r := rfl
    rw [e3, ← htail, e2, e1]
  · have hle : i ≤ s.data.length := by
      have := takeWhile_length_le (fun c => c != '\n') s.data
      omega
    have hlen : (s.data.take i).length = i := by
      rw [List.length_take]
      omega
    intro he
    rw [he] at hlen
    simp at hlen
    omega
  · intro c hc
    have := mem_take_of_le_takeWhile (fun c => c != '\n') s.data i h2 c hc
    simpa using this
  · intro c hc
    exact mem_take_of_le_takeWhile isPySpace (s.data.drop i) j hj c hc
  · intro c hc
    simp only [List.mem_cons, List.not_mem_nil, or_false] at hc
    rcases hc with h | h | h | h
    all_goals subst h
    · exact hdig.1.1.1
    · exact hdig.1.1.2
    · exact hdig.1.2
    · exact hdig.2

theorem hasPrefix_isSome (s : String) (h : hasPrefixYearPattern s) :
    (tryI s.data (s.data.takeWhile (fun c => c != '\n')).length).isSome = true := by
  rcases h with ⟨a, w, d, r, hsplit, hne, hnl, hws, hlen, hdig⟩
  have hi1 : 1 ≤ a.length := by
    cases a with
    | nil => exact absurd rfl hne
    | cons x xs => simp
  have hm : a.length ≤ (s.data.takeWhile (fun c => c != '\n')).length := by
    rw [hsplit, takeWhile_append_all (fun c => c != '\n') a ((w ++ ('(' :: (d ++ ')' :: r))))
      (fun c hc => by simpa using hnl c hc)]
    simp
  have hdrop : s.data.drop a.length = w ++ ('(' :: (d ++ ')' :: r)) := by
    rw [hsplit]
    exact List.drop_left a (w ++ ('(' :: (d ++ ')' :: r)))
  have hwm : ((s.data.drop a.length).takeWhile isPySpace).length = w.length := by
    rw [hdrop, takeWhile_append_all isPySpace w ('(' :: (d ++ ')' :: r)) hws]
    have hz : List.takeWhile isPySpace ('(' :: (d ++ ')' :: r)) = [] := by
      rw [List.takeWhile_cons]
      simp [isPySpace]
    rw [hz]
    simp
  have hcp : checkParen ((s.data.drop a.length).drop w.length) = some (digitsVal d) := by
    have hd2 : (w ++ ('(' :: (d ++ ')' :: r))).drop w.length = '(' :: (d ++ ')' :: r) :=
      List.drop_left w ('(' :: (d ++ ')' :: r))
    rw [hdrop, hd2]
    exact checkParen_complete hlen hdig
  have hws2 : (tryWS (s.data.drop a.length)
      ((s.data.drop a.length).takeWhile isPySpace).length).isSome = true := by
    apply tryWS_complete _ w.length _ (digitsVal d) _ hcp
    rw [hwm]
  exact tryI_complete _ s.data a.length hi1 hm hws2

/-! ## Claim theorems -/

/-- C7: for every store state, listing the catalog (`SELECT * FROM movies
ORDER BY title`) returns all records, sorted in ascending title order,
whatever order the records were inserted in. -/
theorem c7_display_library_sorted (st : Store) :
    List.Perm (display_library st) st ∧ List.Sorted leTitle (display_library st) :=
  ⟨List.perm_insertionSort leTitle st, List.sorted_insertionSort leTitle st⟩

/-- C10: media-file detection returns the path of the first directory entry,
in listing order, whose lowercased name ends in one of exactly
`.mp4 .mkv .avi .mov .wmv .m4v`; entries are matched by name only (directory
entries are eligible), matching is insensitive to the name's case, and the
result is `None` when the folder cannot be listed or no entry matches. -/
theorem c10_find_video_file :
    (∀ fp : String, find_video_file fp none = none) ∧
    (∀ (fp : String) (es : Entries),
      find_video_file fp (some es) =
        ((namesOf es).find? isVideoName).map (fun n => pathJoin fp n)) ∧
    (∀ n : String, isVideoName (String.mk (n.data.map pyLowerChar)) = isVideoName n) := by
  refine ⟨fun _ => rfl, fun fp es => ?_, fun n => ?_⟩
  · show Option.map (fun n => pathJoin fp n) (firstVideoName es) = _
    rw [firstVideoName_eq_find]
  · have hmap : (n.data.map pyLowerChar).map pyLowerChar = n.data.map pyLowerChar := by
      induction n.data with
      | nil => rfl
      | cons c cs ih => simp only [List.map_cons, ih, pyLowerChar_idem]
    show isVideoName ⟨n.data.map pyLowerChar⟩ = isVideoName n
    unfold isVideoName
    rw [show (String.mk (n.data.map pyLowerChar)).data = n.data.map pyLowerChar from rfl, hmap]

/-- C8: on a 200 credits response, the director field is exactly the names of
the crew members whose job is "Director", in list order, joined by ", ", and
is absent when that selection is empty. -/
theorem c8_director_field (env : TmdbEnv) (movie_id : Nat) (crew : List CrewMember)
    (h : env.credits movie_id = some crew) :
    get_director_from_credits env movie_id =
      (if ((crew.filter (fun c => c.job == "Director")).map (fun c => c.name)).isEmpty
       then none
       else some (String.intercalate ", "
         ((crew.filter (fun c => c.job == "Director")).map (fun c => c.name)))) := by
  unfold get_director_from_credits
  rw [h]
  show (match directorsOf crew with
        | [] => none
        | d :: ds => some (pyJoin ", " (d :: ds))) = _
  rw [← directorsOf_eq_filter_map]
  cases hd : directorsOf crew with
  | nil => simp
  | cons d ds =>
    show some (pyJoin ", " (d :: ds)) = _
    rw [pyJoin_eq_intercalate]
    simp

/-- C8 witness: the concrete crew fixture has two directors with an editor
between them; the field is their names in order, comma-joined. -/
theorem c8_director_field_witness :
    envA.credits 7 = some crewA ∧
    get_director_from_credits envA 7 = some "Jane Doe, Ann Poe" ∧
    get_director_from_credits envA 7 =
      (if ((crewA.filter (fun c => c.job == "Director")).map (fun c => c.name)).isEmpty
       then none
       else some (String.intercalate ", "
         ((crewA.filter (fun c => c.job == "Director")).map (fun c => c.name)))) :=
  ⟨rfl, by decide, c8_director_field envA 7 crewA rfl⟩

/-- C9: a folder path already present in the store is skipped outright by a
re-scan: its record, every field included, is exactly the same afterwards. -/
theorem c9_existing_record_unchanged (env : TmdbEnv) (dir : String)
    (listing : Option Entries) (st : Store) (log : List Event) (p : String)
    (r : MovieRecord) (h : dbLookup st p = some r) :
    dbLookup (scan_directory env dir listing (st, log)).1 p = some r := by
  unfold scan_directory
  match listing with
  | none => exact h
  | some es => exact (scanEntries_frame env p r es dir (st, log) h).1

/-- C9 witness: re-scanning a tree whose folder is already catalogued leaves
the old record (with its old fields) in place. -/
theorem c9_existing_record_unchanged_witness :
    dbLookup (scan_directory envA "/m" (some treeW) ([recA], [])).1
      "/m/Alpha (1999)" = some recA :=
  c9_existing_record_unchanged envA "/m" (some treeW) [recA] [] _ recA (by decide)

/-- C4: when the search step returns zero candidates, resolution is `None`,
the store is left exactly as it was, and no poster retrieval is attempted. -/
theorem c4_notfound_no_effects (env : TmdbEnv) (fp title : String) (y : Nat)
    (sub : Option Entries) (st : Store) (h : env.search title y = some []) :
    fetch_movie_info env title y = none ∧
    (processLeaf env fp title y sub (st, [])).1 = st ∧
    ∀ u, Event.posterGet u ∉ (processLeaf env fp title y sub (st, [])).2 := by
  have hf : fetch_movie_info env title y = none := by
    unfold fetch_movie_info
    rw [h]
  refine ⟨hf, ?_, ?_⟩
  · unfold processLeaf
    match hl : dbLookup st fp with
    | some _ => rfl
    | none => rw [hf]
  · intro u
    unfold processLeaf
    match hl : dbLookup st fp with
    | some _ => simp
    | none => rw [hf]; simp

/-- C4 witness: under the zero-candidate environment the folder resolves to
`None`, the empty store stays empty, and no poster retrieval happens. -/
theorem c4_notfound_no_effects_witness :
    envC.search "Alpha" 1999 = some [] ∧
    fetch_movie_info envC "Alpha" 1999 = none ∧
    (processLeaf envC "/m/Alpha (1999)" "Alpha" 1999 (some subW) ([], [])).1 = [] ∧
    ∀ u, Event.posterGet u ∉
      (processLeaf envC "/m/Alpha (1999)" "Alpha" 1999 (some subW) ([], [])).2 :=
  ⟨rfl,
   (c4_notfound_no_effects envC "/m/Alpha (1999)" "Alpha" 1999 (some subW) [] rfl).1,
   (c4_notfound_no_effects envC "/m/Alpha (1999)" "Alpha" 1999 (some subW) [] rfl).2.1,
   (c4_notfound_no_effects envC "/m/Alpha (1999)" "Alpha" 1999 (some subW) [] rfl).2.2⟩

/-- C5: when metadata resolution succeeds but the poster retrieval fails, the
record is still written, with the poster field absent and every other
resolved field intact. -/
theorem c5_poster_failure_still_persists (env : TmdbEnv) (fp title : String)
    (y : Nat) (sub : Option Entries) (st : Store) (info : MovieInfo)
    (h0 : dbLookup st fp = none)
    (h1 : fetch_movie_info env title y = some info)
    (h2 : (download_poster env info.poster_url info.title).1 = none) :
    (processLeaf env fp title y sub (st, [])).1 =
      upsert st
        { title := info.title, year := info.year, director := info.director,
          countries := info.countries, poster_path := none, plot := info.plot,
          genres := info.genres, rating := info.rating, folder_path := fp,
          last_updated := env.now, tmdb_id := info.tmdb_id,
          video_path := find_video_file fp sub } := by
  unfold processLeaf
  rw [h0, h1]
  simp only [← h2]

/-- C5 witness: with every poster retrieval failing, scanning a fresh folder
still upserts the full record, poster field absent. -/
theorem c5_poster_failure_still_persists_witness :
    dbLookup ([] : Store) "/m/Alpha (1999)" = none ∧
    fetch_movie_info envB "Alpha" 1999 = some infoB ∧
    (download_poster envB infoB.poster_url infoB.title).1 = none ∧
    (processLeaf envB "/m/Alpha (1999)" "Alpha" 1999 (some subW) ([], [])).1 =
      upsert []
        { title := infoB.title, year := infoB.year, director := infoB.director,
          countries := infoB.countries, poster_path := none, plot := infoB.plot,
          genres := infoB.genres, rating := infoB.rating,
          folder_path := "/m/Alpha (1999)", last_updated := envB.now,
          tmdb_id := infoB.tmdb_id,
          video_path := find_video_file "/m/Alpha (1999)" (some subW) } :=
  ⟨rfl, by decide, by decide,
   c5_poster_failure_still_persists envB "/m/Alpha (1999)" "Alpha" 1999 (some subW) []
     infoB rfl (by decide) (by decide)⟩

/-- Helper: one reconciliation pass preserves key uniqueness. -/
theorem scan_directory_nodup (env : TmdbEnv) (dir : String) (listing : Option Entries)
    (st : Store) (log : List Event) (h : keysNodup st) :
    keysNodup (scan_directory env dir listing (st, log)).1 := by
  unfold scan_directory
  match listing with
  | none => exact h
  | some es => exact scanEntries_nodup env es dir (st, log) h

/-- C2: re-running the reconciliation scan never issues a metadata fetch for
a folder path already present in the store, and `folder_path` identifies at
most one record in every reachable store state — no duplicate is ever
created. -/
theorem c2_rescan_idempotent :
    (∀ (env : TmdbEnv) (dir : String) (listing : Option Entries) (st : Store)
        (p : String) (r : MovieRecord), dbLookup st p = some r →
        Event.fetch p ∉ (scan_directory env dir listing (st, [])).2) ∧
    (∀ st : Store, Reachable st → keysNodup st) := by
  constructor
  · intro env dir listing st p r h hmem
    unfold scan_directory at hmem
    match listing, hmem with
    | none, hmem => simp at hmem
    | some es, hmem =>
      have := (scanEntries_frame env p r es dir (st, []) h).2 hmem
      simp at this
  · intro st h
    induction h with
    | empty => simp [setup_database, keysNodup]
    | rescan env dir listing log st _ ih => exact scan_directory_nodup env dir listing st log ih

/-- C2 witness: a store already holding `/m/Alpha (1999)` gets no second
fetch for that path on re-scan, and the fresh store trivially has unique
keys. -/
theorem c2_rescan_idempotent_witness :
    Event.fetch "/m/Alpha (1999)" ∉
      (scan_directory envA "/m" (some treeW) ([recA], [])).2 ∧
    keysNodup setup_database :=
  ⟨c2_rescan_idempotent.1 envA "/m" (some treeW) [recA] "/m/Alpha (1999)" recA (by decide),
   c2_rescan_idempotent.2 setup_database Reachable.empty⟩

/-- C3: the four-digit year parsed from the folder name is what is stored:
`fetch_movie_info` echoes its `year` argument whatever the provider returns
(the unread `release_date` field carries the provider's own year), and every
record a scan adds carries the year parsed from its folder's name. -/
theorem c3_year_is_folder_year (env : TmdbEnv) :
    (∀ (title : String) (y : Nat) (info : MovieInfo),
        fetch_movie_info env title y = some info → info.year = y) ∧
    (∀ (dir : String) (es : Entries) (st : Store) (log : List Event)
        (r : MovieRecord), r ∈ (scanEntries env dir es (st, log)).1 →
        r ∈ st ∨ ∃ d n, r.folder_path = pathJoin d n ∧
          (parse_movie_folder n).2 = some r.year) :=
  ⟨fun title y info h => fetch_movie_info_year env title y info h,
   fun dir es st log r h => scanEntries_mem_year env r es dir (st, log) h⟩

/-- C3 witness: under a provider whose details say 1977, the folder
`Alpha (1999)` is stored with year 1999, and the stored record's year is the
one its folder name parses to. -/
theorem c3_year_is_folder_year_witness :
    infoB.year = 1999 ∧
    (recScanA ∈ ([] : Store) ∨ ∃ d n, recScanA.folder_path = pathJoin d n ∧
      (parse_movie_folder n).2 = some recScanA.year) :=
  ⟨(c3_year_is_folder_year envB).1 "Alpha" 1999 infoB (by decide),
   (c3_year_is_folder_year envA).2 "/m" treeW [] [] recScanA (by decide)⟩

/-- C6 (amended, movielib_v1.1.py): an unlistable organizational directory in
a listing costs only its own subtree — the store is untouched by it, the
error is reported, and the scan continues with all sibling entries (and,
since the call returns normally, with every ancestor level). -/
theorem c6_unlistable_isolated_v11 (env : TmdbEnv) (dir n : String)
    (pre post : Entries) (st : Store) (log : List Event)
    (h1 : n ≠ "posters") (h2 : startsWithDot n = false)
    (h3 : (parse_movie_folder n).2 = none ∨ (parse_movie_folder n).2 = some 0) :
    scanEntries env dir (eapp pre (.consBadDir n post)) (st, log) =
      scanEntries env dir post
        ((scanEntries env dir pre (st, log)).1,
         (scanEntries env dir pre (st, log)).2 ++ [Event.scanErr (pathJoin dir n)]) := by
  rw [scanEntries_eapp]
  have hcond : (decide (n = "posters") || startsWithDot n) = false := by
    simp [h1, h2]
  rcases hp : parse_movie_folder n with ⟨t, yr⟩
  show (let s' :=
          if n = "posters" || startsWithDot n then scanEntries env dir pre (st, log)
          else
            match parse_movie_folder n with
            | (title, some y) =>
              if y = 0 then
                ((scanEntries env dir pre (st, log)).1,
                 (scanEntries env dir pre (st, log)).2 ++ [Event.scanErr (pathJoin dir n)])
              else processLeaf env (pathJoin dir n) title y none (scanEntries env dir pre (st, log))
            | (_, none) =>
              ((scanEntries env dir pre (st, log)).1,
               (scanEntries env dir pre (st, log)).2 ++ [Event.scanErr (pathJoin dir n)]);
        scanEntries env dir post s') = _
  rw [hp] at h3 ⊢
  rcases h3 with h3 | h3
  · simp only at h3
    subst h3
    simp only [hcond]
    rfl
  · simp only at h3
    subst h3
    simp only [hcond]
    rfl

/-- C6 counterexample (movie-library-TMdB.py, also cited by the claim): with
the same tree, the older `scan_directory` has no exception handling, so the
unlistable directory `/m/Sub` aborts the entire scan — the leaf sibling
`Alpha (1999)` is never catalogued, while the movielib_v1.1.py scan on the
same tree does catalogue it. -/
theorem c6_unlistable_aborts_tmdb :
    scan_directory_tm envA "/m" (some treeC6) ([], []) = Except.error "/m/Sub" ∧
    (dbLookup (scan_directory envA "/m" (some treeC6) ([], [])).1
      "/m/Alpha (1999)").isSome = true :=
  ⟨rfl, by decide⟩

/-- C6 witness: with a movie-leaf sibling on each side of the unlistable
directory, the v1.1 scan reports the error and continues with the second
sibling from the state the first one produced. -/
theorem c6_unlistable_isolated_v11_witness :
    scanEntries envA "/m"
      (eapp (.consDir "Alpha (1999)" subW .nil)
        (.consBadDir "Sub" (.consDir "Beta (2001)" .nil .nil))) ([], []) =
      scanEntries envA "/m" (.consDir "Beta (2001)" .nil .nil)
        ((scanEntries envA "/m" (.consDir "Alpha (1999)" subW .nil) ([], [])).1,
         (scanEntries envA "/m" (.consDir "Alpha (1999)" subW .nil) ([], [])).2 ++
           [Event.scanErr "/m/Sub"]) :=
  c6_unlistable_isolated_v11 envA "/m" "Sub" (.consDir "Alpha (1999)" subW .nil)
    (.consDir "Beta (2001)" .nil .nil) [] [] (by decide) (by decide)
    (Or.inl (by decide))

/-- C1 counterexample: `"Movie (1999) bonus"` does not match the trailing
pattern `<text> (<4-digit year>)` of the claim, so the claim requires the
whole name back with no year; but `re.match` is not end-anchored, and
`parse_movie_folder` returns `("Movie", 1999)`. -/
theorem c1_not_trailing_counterexample :
    matchesTrailingYearPattern "Movie (1999) bonus" = false ∧
    parse_movie_folder "Movie (1999) bonus" = ("Movie", some 1999) ∧
    parse_movie_folder "Movie (1999) bonus" ≠ ("Movie (1999) bonus", none) := by
  refine ⟨by decide, by decide, ?_⟩
  intro h
  have := congrArg Prod.snd h
  simp [show parse_movie_folder "Movie (1999) bonus" = ("Movie", some 1999) by decide] at this

/-- C1 (amended): the pattern is anchored at the start of the name but not at
its end.  A name with no prefix of the form
`<nonempty newline-free text><whitespace>(<4 digits>)` is returned whole with
the year absent; a name with such a prefix is split by the regex's greedy
backtracking into such a decomposition, and the parser returns the stripped
text with the parsed 4-digit integer — whatever trails the year group. -/
theorem c1_parse_characterization (s : String) :
    (¬ hasPrefixYearPattern s → parse_movie_folder s = (s, none)) ∧
    (hasPrefixYearPattern s →
      ∃ a w d r, s.data = a ++ (w ++ ('(' :: (d ++ ')' :: r))) ∧ a ≠ [] ∧
        (∀ c ∈ a, c ≠ '\n') ∧ (∀ c ∈ w, isPySpace c = true) ∧
        d.length = 4 ∧ (∀ c ∈ d, c.isDigit = true) ∧
        parse_movie_folder s = (pyStrip a, some (digitsVal d))) := by
  rcases ht : tryI s.data (s.data.takeWhile (fun c => c != '\n')).length with _ | ⟨i, y⟩
  · have hp : parse_movie_folder s = (s, none) := by
      unfold parse_movie_folder
      rw [ht]
    constructor
    · intro _
      exact hp
    · intro hpre
      have := hasPrefix_isSome s hpre
      rw [ht] at this
      exact absurd this (by simp)
  · have hp : parse_movie_folder s = (pyStrip (s.data.take i), some y) := by
      unfold parse_movie_folder
      rw [ht]
    rcases parse_success_decomp s i y ht with
      ⟨a, w, d, r, hsplit, hne, hnl, hws, hlen, hdig, ha, hy⟩
    constructor
    · intro hno
      exact absurd ⟨a, w, d, r, hsplit, hne, hnl, hws, hlen, hdig⟩ hno
    · intro _
      refine ⟨a, w, d, r, hsplit, hne, hnl, hws, hlen, hdig, ?_⟩
      rw [hp, ha, hy]

/-- C1 witness: `"Tron (1982)"` decomposes as text `"Tron"`, one space, and
the digit group `1982`, and the parser returns the stripped text with the
parsed year. -/
theorem c1_parse_characterization_witness :
    hasPrefixYearPattern "Tron (1982)" ∧
    parse_movie_folder "Tron (1982)" = ("Tron", some 1982) ∧
    (∃ a w d r, "Tron (1982)".data = a ++ (w ++ ('(' :: (d ++ ')' :: r))) ∧ a ≠ [] ∧
      (∀ c ∈ a, c ≠ '\n') ∧ (∀ c ∈ w, isPySpace c = true) ∧
      d.length = 4 ∧ (∀ c ∈ d, c.isDigit = true) ∧
      parse_movie_folder "Tron (1982)" = (pyStrip a, some (digitsVal d))) := by
  have hpre : hasPrefixYearPattern "Tron (1982)" := by
    refine ⟨['T', 'r', 'o', 'n'], [' '], ['1', '9', '8', '2'], [], ?_, ?_, ?_, ?_, ?_, ?_⟩
    · decide
    · decide
    · decide
    · decide
    · decide
    · decide
  exact ⟨hpre, by decide, (c1_parse_characterization "Tron (1982)").2 hpre⟩
